import Mathlib

/-!
Shallow embedding of the keyless-account derivation pipeline
(`src/internal/keyless.ts`) and the simulate-transaction passthrough
(`src/api/transactionSubmission/simulate.ts`) of the reviewed TypeScript
client library, together with proofs of the specified properties.

Effectful TypeScript code is embedded as pure Lean functions over an explicit
environment (`Env`) that answers the external HTTP requests and supplies the
clock, returning a trace of issued requests (`Event`) alongside the result.
A thrown `Error` is an `Except.error` carrying the message on a best-effort
basis; the in-memory memoization cache is threaded explicitly.
-/

set_option autoImplicit false

namespace AptosSDK

/-- Byte strings (`Uint8Array` in the source) are lists of naturals. -/
abbrev Bytes := List Nat

/-! ## Hex encoding and decoding

Modelled from the spec: the `Hex` helper class of `core/hex.ts` is not among
the reviewed sources; it is the standard hex codec the sources use via
`Hex.fromHexInput(...).toUint8Array()` / `.toStringWithoutPrefix()`:
a hex input is either a byte array (taken as is) or a string (an optional
`0x` marker removed, then decoded two hex digits per byte, throwing on a
malformed string). -/

/-- Character for a nibble value: `0`-`9` then lowercase `a`-`f`. -/
def nibbleToChar (n : Nat) : Char :=
  if n < 10 then Char.ofNat (48 + n) else Char.ofNat (87 + n)

/-- Two-digit lowercase hex rendering of one byte. -/
def byteToHexStr (b : Nat) : String :=
  String.mk [nibbleToChar (b / 16 % 16), nibbleToChar (b % 16)]

/-- Lowercase hex rendering of a byte string, no `0x` marker. -/
def bytesToHex (bs : Bytes) : String := String.join (bs.map byteToHexStr)

/-- Value of a hex digit character, `none` when the character is not one. -/
def charToNibble (c : Char) : Option Nat :=
  if c = '0' then some 0 else if c = '1' then some 1
  else if c = '2' then some 2 else if c = '3' then some 3
  else if c = '4' then some 4 else if c = '5' then some 5
  else if c = '6' then some 6 else if c = '7' then some 7
  else if c = '8' then some 8 else if c = '9' then some 9
  else if c = 'a' ∨ c = 'A' then some 10 else if c = 'b' ∨ c = 'B' then some 11
  else if c = 'c' ∨ c = 'C' then some 12 else if c = 'd' ∨ c = 'D' then some 13
  else if c = 'e' ∨ c = 'E' then some 14 else if c = 'f' ∨ c = 'F' then some 15
  else none

/-- Decode a list of hex digit characters, two per byte; `none` when a
character is not a hex digit or the length is odd. -/
def hexPairsToBytes : List Char → Option Bytes
  | [] => some []
  | [_] => none
  | c1 :: c2 :: rest => do
    let hi ← charToNibble c1
    let lo ← charToNibble c2
    let tail ← hexPairsToBytes rest
    pure ((hi * 16 + lo) :: tail)

/-- Remove a leading `0x` marker when present. -/
def strip0x (s : String) : String :=
  match s.data with
  | '0' :: 'x' :: rest => String.mk rest
  | _ => s

/-- An argument that is either a hex string or a byte array
(the `HexInput` union type of the source). -/
inductive HexInput where
  | str (s : String)
  | bytes (b : Bytes)
  deriving DecidableEq

/-- A parsed hex value wrapping its bytes. -/
structure Hex where
  data : Bytes
  deriving DecidableEq

/-- Parse a hex string (optional `0x` marker), throwing on the empty string,
odd length, or a non-hex character. -/
def Hex.fromHexString (s : String) : Except String Hex :=
  let t := strip0x s
  if t = "" then .error "Hex string is empty"
  else match hexPairsToBytes t.data with
    | some b => .ok ⟨b⟩
    | none => .error ("Hex string contains invalid hex characters: " ++ s)

/-- Build a `Hex` from a `HexInput`: byte arrays are taken as is, strings are
parsed. -/
def Hex.fromHexInput : HexInput → Except String Hex
  | .str s => Hex.fromHexString s
  | .bytes b => .ok ⟨b⟩

/-- The underlying bytes (`toUint8Array` in the source). -/
def Hex.toUint8Array (h : Hex) : Bytes := h.data

/-- Lowercase hex string without the `0x` marker
(`toStringWithoutPrefix` in the source; renamed here). -/
def Hex.toStringNoPfx (h : Hex) : String := bytesToHex h.data

/-! ## Request and response shapes (`types/keyless.ts`) -/

/-- Body posted to the pepper service (`PepperFetchRequest`). -/
structure PepperFetchRequest where
  jwt_b64 : String
  epk : String
  exp_date_secs : Nat
  epk_blinder : String
  uid_key : String
  derivation_path : Option String
  deriving DecidableEq

/-- Response of the pepper service: the pepper as a hex string. -/
structure PepperFetchResponse where
  pepper : String
  deriving DecidableEq

/-- Body posted to the proving service (`ProverRequest`). -/
structure ProverRequest where
  jwt_b64 : String
  epk : String
  epk_blinder : String
  exp_date_secs : Nat
  exp_horizon_secs : Nat
  pepper : String
  uid_key : String
  deriving DecidableEq

/-- The three Groth16 proof points of the prover response. -/
structure ProofPoints where
  a : String
  b : String
  c : String
  deriving DecidableEq

/-- Response of the proving service (`ProverResponse`). -/
structure ProverResponse where
  proof : ProofPoints
  training_wheels_signature : String
  deriving DecidableEq

/-- On-chain `0x1::keyless_account::Configuration` resource data.  Its
`max_exp_horizon_secs` arrives as a decimal string and is used through
`Number(...)`; the embedding types the field by its numeric value. -/
structure KeylessConfigurationResponse where
  max_exp_horizon_secs : Nat
  deriving DecidableEq

/-- On-chain `0x1::keyless_account::Groth16VerificationKey` resource data. -/
structure Groth16VerificationKeyResponse where
  alpha_g1 : String
  beta_g2 : String
  delta_g2 : String
  gamma_abc_g1 : List String
  gamma_g2 : String
  deriving DecidableEq

/-! ## Core value objects

Modelled from the spec: the classes `Groth16Zkp`, `ZkProof`,
`EphemeralSignature`, `ZeroKnowledgeSig`, `KeylessConfiguration` of `core/`
and the `EphemeralKeyPair` / `KeylessAccount` classes of `account/` are not
among the reviewed sources.  The spec describes them as passive data
carriers ("minimal value objects only, with no invariants beyond field
shape"), so they are embedded as structures holding exactly what the
reviewed call sites put into them. -/

/-- Groth16 zero-knowledge proof built from the three proof points. -/
structure Groth16Zkp where
  a : String
  b : String
  c : String
  deriving DecidableEq

/-- Variant tag of a zero-knowledge proof. -/
inductive ZkpVariant where
  | Groth16
  deriving DecidableEq

/-- A proof together with its variant tag. -/
structure ZkProof where
  proof : Groth16Zkp
  variant : ZkpVariant
  deriving DecidableEq

/-- An ephemeral signature, parsed from hex. -/
structure EphemeralSignature where
  data : Bytes
  deriving DecidableEq

/-- `EphemeralSignature.fromHex`: parse the hex input into signature bytes. -/
def EphemeralSignature.fromHex (h : HexInput) : Except String EphemeralSignature :=
  match Hex.fromHexInput h with
  | .error e => .error e
  | .ok x => .ok ⟨x.data⟩

/-- The `ZeroKnowledgeSig` value object: proof, expiry horizon, and the
training-wheels signature. -/
structure ZeroKnowledgeSig where
  proof : ZkProof
  expHorizonSecs : Nat
  trainingWheelsSignature : EphemeralSignature
  deriving DecidableEq

/-- The on-chain keyless configuration: verification key and maximum expiry
horizon in seconds. -/
structure KeylessConfiguration where
  verificationKey : Groth16VerificationKeyResponse
  maxExpHorizonSecs : Nat
  deriving DecidableEq

/-- `KeylessConfiguration.create`: assemble the configuration from the
verification-key resource and the numeric horizon. -/
def KeylessConfiguration.create (vk : Groth16VerificationKeyResponse)
    (maxExpHorizonSecs : Nat) : KeylessConfiguration :=
  ⟨vk, maxExpHorizonSecs⟩

/-- An ephemeral key pair as the reviewed code observes it:
`getPublicKey().bcsToHex().toStringWithoutPrefix()` is kept as an opaque
string field, plus the expiry date and the blinder bytes. -/
structure EphemeralKeyPair where
  publicKeyBcsHex : String
  expiryDateSecs : Nat
  blinder : Bytes
  deriving DecidableEq

/-- Client configuration; the reviewed code only reads `network`. -/
structure AptosConfig where
  network : String
  deriving DecidableEq

/-! ## Execution environment, events, results -/

/-- An external HTTP request issued by the reviewed code: a full-node GET
(identified by its path), a pepper-service POST, or a proving-service POST
(each identified by its body). -/
inductive Event where
  | fullNodeGet (path : String)
  | pepperPost (body : PepperFetchRequest)
  | provePost (body : ProverRequest)
  deriving DecidableEq

/-- The environment a call runs in: the responses of the three external
services and the clock.  `nowSecs` is `currentTimeInSeconds()`, `nowMs` the
millisecond clock the memoization helper reads. -/
structure Env where
  keylessConfigResource : Except String KeylessConfigurationResponse
  groth16VkResource : Except String Groth16VerificationKeyResponse
  pepperResponse : PepperFetchRequest → Except String PepperFetchResponse
  proverResponse : ProverRequest → Except String ProverResponse
  nowSecs : Nat
  nowMs : Nat

/-- Outcome of a stateless call: the trace of issued requests, in order, and
the returned value or thrown error. -/
structure Eff (α : Type) where
  trace : List Event
  result : Except String α

/-! ## Memoization cache

Modelled from the spec: `memoizeAsync` of `utils/memoize.ts` is not among
the reviewed sources.  The spec describes it as a brief per-network cache
("fetch on-chain config (with a 5-minute cache)"): a global map from cache
key to value and storage timestamp; a lookup within the time-to-live returns
the stored value without recomputation, otherwise the function runs and its
result is stored with the current timestamp. -/

/-- One stored cache entry: the value and the millisecond timestamp at which
it was stored. -/
structure CacheEntry where
  value : KeylessConfiguration
  lastUpdated : Nat
  deriving DecidableEq

/-- The memoization map, keyed by cache-key strings. -/
structure MemoCache where
  entries : List (String × CacheEntry)
  deriving DecidableEq

/-- Look up a cache key. -/
def MemoCache.lookup (c : MemoCache) (key : String) : Option CacheEntry :=
  (c.entries.find? (fun e => e.fst == key)).map (fun e => e.snd)

/-- Store a value under a key, replacing any previous entry. -/
def MemoCache.store (c : MemoCache) (key : String) (e : CacheEntry) : MemoCache :=
  ⟨(key, e) :: c.entries.filter (fun x => x.fst != key)⟩

/-- Outcome of a call that also touches the memoization cache. -/
structure EffS (α : Type) where
  trace : List Event
  result : Except String α
  cache : MemoCache

/-! ## The keyless internals (`src/internal/keyless.ts`) -/

/-- Path of the on-chain keyless configuration resource read
(`accounts/0x1/resource/0x1::keyless_account::Configuration`). -/
def keylessConfigurationPath : String :=
  "accounts/0x1/resource/0x1::keyless_account::Configuration"

/-- Path of the on-chain Groth16 verification key resource read. -/
def groth16VerificationKeyPath : String :=
  "accounts/0x1/resource/0x1::keyless_account::Groth16VerificationKey"

/-- `getKeylessConfigurationResource`: GET the configuration resource from
the full node. -/
def getKeylessConfigurationResource (env : Env) : Eff KeylessConfigurationResponse :=
  ⟨[.fullNodeGet keylessConfigurationPath], env.keylessConfigResource⟩

/-- `getGroth16VerificationKeyResource`: GET the verification key resource
from the full node. -/
def getGroth16VerificationKeyResource (env : Env) : Eff Groth16VerificationKeyResponse :=
  ⟨[.fullNodeGet groth16VerificationKeyPath], env.groth16VkResource⟩

/-- Time-to-live of the keyless configuration cache: `1000 * 60 * 5`
milliseconds (5 minutes). -/
def keylessMemoTtlMs : Nat := 1000 * 60 * 5

/-- Cache key used by `getKeylessConfig`:
`keyless-configuration-` followed by the network name. -/
def keylessMemoKey (aptosConfig : AptosConfig) : String :=
  "keyless-configuration-" ++ aptosConfig.network

/-- Freshness test of the spec-modelled memoization: the cached value when
the key is present and was stored within the time-to-live. -/
def memoLookup (env : Env) (cache : MemoCache) (key : String) :
    Option KeylessConfiguration :=
  match cache.lookup key with
  | some entry =>
    if env.nowMs - entry.lastUpdated ≤ keylessMemoTtlMs then some entry.value else none
  | none => none

/-- `getKeylessConfig`: read the two on-chain resources and assemble a
`KeylessConfiguration`, memoized per network for 5 minutes via
`memoizeAsync` (the cache behaviour is spec-modelled, see `MemoCache`). -/
def getKeylessConfig (aptosConfig : AptosConfig) (env : Env) (cache : MemoCache) :
    EffS KeylessConfiguration :=
  let key := keylessMemoKey aptosConfig
  match memoLookup env cache key with
  | some v => ⟨[], .ok v, cache⟩
  | none =>
    let r1 := getKeylessConfigurationResource env
    match r1.result with
    | .error e => ⟨r1.trace, .error e, cache⟩
    | .ok config =>
      let r2 := getGroth16VerificationKeyResource env
      match r2.result with
      | .error e => ⟨r1.trace ++ r2.trace, .error e, cache⟩
      | .ok vk =>
        let v := KeylessConfiguration.create vk config.max_exp_horizon_secs
        ⟨r1.trace ++ r2.trace, .ok v, cache.store key ⟨v, env.nowMs⟩⟩

/-- Arguments of `getPepper`. -/
structure GetPepperArgs where
  aptosConfig : AptosConfig
  jwt : String
  ephemeralKeyPair : EphemeralKeyPair
  uidKey : Option String
  derivationPath : Option String
  deriving DecidableEq

/-- The body `getPepper` posts to the pepper service. -/
def mkPepperRequest (args : GetPepperArgs) : PepperFetchRequest :=
  { jwt_b64 := args.jwt
    epk := args.ephemeralKeyPair.publicKeyBcsHex
    exp_date_secs := args.ephemeralKeyPair.expiryDateSecs
    epk_blinder := Hex.toStringNoPfx ⟨args.ephemeralKeyPair.blinder⟩
    uid_key := args.uidKey.getD "sub"
    derivation_path := args.derivationPath }

/-- `getPepper`: post the request to the pepper service and hex-decode the
pepper of the response. -/
def getPepper (env : Env) (args : GetPepperArgs) : Eff Bytes :=
  let body := mkPepperRequest args
  match env.pepperResponse body with
  | .error e => ⟨[.pepperPost body], .error e⟩
  | .ok data =>
    match Hex.fromHexInput (.str data.pepper) with
    | .error e => ⟨[.pepperPost body], .error e⟩
    | .ok h => ⟨[.pepperPost body], .ok h.toUint8Array⟩

/-- Arguments of `getProof`. -/
structure GetProofArgs where
  aptosConfig : AptosConfig
  jwt : String
  ephemeralKeyPair : EphemeralKeyPair
  pepper : HexInput
  uidKey : Option String
  deriving DecidableEq

/-- Message thrown by `getProof` when the ephemeral key pair outlives the
configured horizon. -/
def ekpTooLongLivedMsg (maxExpHorizonSecs : Nat) : String :=
  "The EphemeralKeyPair is too long lived.  It\x27s lifespan must be less than "
    ++ toString maxExpHorizonSecs

/-- The body `getProof` posts to the proving service. -/
def mkProverRequest (args : GetProofArgs) (maxExpHorizonSecs : Nat) (pepperHex : Hex) :
    ProverRequest :=
  { jwt_b64 := args.jwt
    epk := args.ephemeralKeyPair.publicKeyBcsHex
    epk_blinder := Hex.toStringNoPfx ⟨args.ephemeralKeyPair.blinder⟩
    exp_date_secs := args.ephemeralKeyPair.expiryDateSecs
    exp_horizon_secs := maxExpHorizonSecs
    pepper := pepperHex.toStringNoPfx
    uid_key := args.uidKey.getD "sub" }

/-- `getProof`: fetch the keyless configuration, validate the ephemeral key
pair lifetime against `maxExpHorizonSecs`, post the prover request, and
assemble the `ZeroKnowledgeSig` from the response.  The JS subtraction
`expiryDateSecs - currentTimeInSeconds()` is embedded as truncated `Nat`
subtraction, which agrees with the JS comparison (a negative JS difference
and a truncated-to-zero difference both fail the `<` test against the
non-negative horizon). -/
def getProof (env : Env) (cache : MemoCache) (args : GetProofArgs) :
    EffS ZeroKnowledgeSig :=
  let kc := getKeylessConfig args.aptosConfig env cache
  match kc.result with
  | .error e => ⟨kc.trace, .error e, kc.cache⟩
  | .ok conf =>
    if conf.maxExpHorizonSecs < args.ephemeralKeyPair.expiryDateSecs - env.nowSecs then
      ⟨kc.trace, .error (ekpTooLongLivedMsg conf.maxExpHorizonSecs), kc.cache⟩
    else
      match Hex.fromHexInput args.pepper with
      | .error e => ⟨kc.trace, .error e, kc.cache⟩
      | .ok pepperHex =>
        let json := mkProverRequest args conf.maxExpHorizonSecs pepperHex
        match env.proverResponse json with
        | .error e => ⟨kc.trace ++ [.provePost json], .error e, kc.cache⟩
        | .ok data =>
          match EphemeralSignature.fromHex (.str data.training_wheels_signature) with
          | .error e => ⟨kc.trace ++ [.provePost json], .error e, kc.cache⟩
          | .ok tws =>
            let groth16Zkp : Groth16Zkp :=
              { a := data.proof.a, b := data.proof.b, c := data.proof.c }
            let signedProof : ZeroKnowledgeSig :=
              { proof := { proof := groth16Zkp, variant := .Groth16 }
                expHorizonSecs := conf.maxExpHorizonSecs
                trainingWheelsSignature := tws }
            ⟨kc.trace ++ [.provePost json], .ok signedProof, kc.cache⟩

/-! ## Keyless account assembly -/

/-- `KeylessAccount.PEPPER_LENGTH`.  Modelled from the spec: the
`KeylessAccount` class of `account/` is not among the reviewed sources; the
spec fixes the pepper as a "fixed-length byte value" and the reviewed code
compares against this constant, whose published value is 31 bytes. -/
def KeylessAccount.PEPPER_LENGTH : Nat := 31

/-- Message thrown by `deriveKeylessAccount` on a wrong-length pepper. -/
def pepperLengthMsg : String :=
  "Pepper needs to be " ++ toString KeylessAccount.PEPPER_LENGTH ++ " bytes"

/-- Decidable equality of `Except` results, for concrete evaluation. -/
instance {ε α : Type} [DecidableEq ε] [DecidableEq α] : DecidableEq (Except ε α)
  | .error a, .error b =>
    if h : a = b then isTrue (by rw [h]) else isFalse (by intro hh; cases hh; exact h rfl)
  | .error _, .ok _ => isFalse (by intro h; cases h)
  | .ok _, .error _ => isFalse (by intro h; cases h)
  | .ok a, .ok b =>
    if h : a = b then isTrue (by rw [h]) else isFalse (by intro hh; cases hh; exact h rfl)

/-- The proof handed to `KeylessAccount.create`: either an already awaited
`ZeroKnowledgeSig`, or — when a proof-fetch callback is supplied — the
still-pending promise, embedded as the eventual outcome of the proof
fetch that the caller is left to await. -/
inductive ProofInput where
  | resolved (sig : ZeroKnowledgeSig)
  | pending (outcome : Except String ZeroKnowledgeSig)
  deriving DecidableEq

/-- The assembled keyless account.  Modelled from the spec: "KeylessAccount:
assembled from the above plus the ephemeral key pair"; the structure holds
exactly what the reviewed call site passes to `KeylessAccount.create`. -/
structure KeylessAccount where
  jwt : String
  ephemeralKeyPair : EphemeralKeyPair
  uidKey : String
  pepper : Bytes
  proof : ProofInput
  hasProofFetchCallback : Bool
  deriving DecidableEq

/-- `KeylessAccount.create`: assemble the account value object (the `sub`
default for the uid key lives in the class, as in the source). -/
def KeylessAccount.create (jwt : String) (ephemeralKeyPair : EphemeralKeyPair)
    (uidKey : Option String) (pepper : Bytes) (proof : ProofInput)
    (hasProofFetchCallback : Bool) : KeylessAccount :=
  ⟨jwt, ephemeralKeyPair, uidKey.getD "sub", pepper, proof, hasProofFetchCallback⟩

/-- Arguments of `deriveKeylessAccount`.  `proofFetchCallback` records
whether the optional callback was supplied. -/
structure DeriveKeylessAccountArgs where
  aptosConfig : AptosConfig
  jwt : String
  ephemeralKeyPair : EphemeralKeyPair
  uidKey : Option String
  pepper : Option HexInput
  proofFetchCallback : Bool
  deriving DecidableEq

/-- The `getPepper` arguments `deriveKeylessAccount` forwards
(`getPepper(args)`; the derive arguments carry no derivation path). -/
def DeriveKeylessAccountArgs.toGetPepperArgs (args : DeriveKeylessAccountArgs) :
    GetPepperArgs :=
  { aptosConfig := args.aptosConfig
    jwt := args.jwt
    ephemeralKeyPair := args.ephemeralKeyPair
    uidKey := args.uidKey
    derivationPath := none }

/-- The `getProof` arguments `deriveKeylessAccount` builds
(`getProof({ ...args, pepper })`, the pepper now a byte array). -/
def DeriveKeylessAccountArgs.toGetProofArgs (args : DeriveKeylessAccountArgs)
    (pepperBytes : Bytes) : GetProofArgs :=
  { aptosConfig := args.aptosConfig
    jwt := args.jwt
    ephemeralKeyPair := args.ephemeralKeyPair
    pepper := .bytes pepperBytes
    uidKey := args.uidKey }

/-- Lines 181-186 of `deriveKeylessAccount`: obtain the pepper bytes, from
the pepper service when none was supplied, otherwise by normalizing the
supplied `HexInput` through hex decoding. -/
def pepperPhase (env : Env) (args : DeriveKeylessAccountArgs) : Eff Bytes :=
  match args.pepper with
  | none => getPepper env args.toGetPepperArgs
  | some p =>
    match Hex.fromHexInput p with
    | .error e => ⟨[], .error e⟩
    | .ok h => ⟨[], .ok h.toUint8Array⟩

/-- `deriveKeylessAccount`: obtain the pepper, validate its length, start
the proof fetch, and assemble the account.  The proof promise is created
(and hence the request issued) in both callback modes; with a callback the
promise is handed to `KeylessAccount.create` unawaited, without one it is
awaited so a proof-fetch failure propagates. -/
def deriveKeylessAccount (env : Env) (cache : MemoCache)
    (args : DeriveKeylessAccountArgs) : EffS KeylessAccount :=
  let pp := pepperPhase env args
  match pp.result with
  | .error e => ⟨pp.trace, .error e, cache⟩
  | .ok pepperBytes =>
    if pepperBytes.length ≠ KeylessAccount.PEPPER_LENGTH then
      ⟨pp.trace, .error pepperLengthMsg, cache⟩
    else
      let proofPromise := getProof env cache (args.toGetProofArgs pepperBytes)
      if args.proofFetchCallback then
        let account := KeylessAccount.create args.jwt args.ephemeralKeyPair
          args.uidKey pepperBytes (.pending proofPromise.result) true
        ⟨pp.trace ++ proofPromise.trace, .ok account, proofPromise.cache⟩
      else
        match proofPromise.result with
        | .error e => ⟨pp.trace ++ proofPromise.trace, .error e, proofPromise.cache⟩
        | .ok sig =>
          let account := KeylessAccount.create args.jwt args.ephemeralKeyPair
            args.uidKey pepperBytes (.resolved sig) false
          ⟨pp.trace ++ proofPromise.trace, .ok account, proofPromise.cache⟩

/-! ## Simulate passthrough (`src/api/transactionSubmission/simulate.ts`)

The collaborating types (`PublicKey`, `AnyRawTransaction`,
`InputSimulateTransactionOptions`, `UserTransactionResponse`) are opaque to
the reviewed file and embedded as opaque carriers. -/

/-- Opaque public key. -/
structure PublicKey where
  raw : String
  deriving DecidableEq

/-- Opaque raw transaction. -/
structure AnyRawTransaction where
  raw : String
  deriving DecidableEq

/-- Opaque simulation options. -/
structure InputSimulateTransactionOptions where
  raw : String
  deriving DecidableEq

/-- Opaque simulation response. -/
structure UserTransactionResponse where
  raw : String
  deriving DecidableEq

/-- The argument object of the internal `simulateTransaction`, as assembled
by the `Simulate` methods: their arguments extended with the instance's
`AptosConfig` (a field absent from a method's argument type is `none`). -/
structure SimulateTransactionArgs where
  aptosConfig : AptosConfig
  signerPublicKey : Option PublicKey
  transaction : AnyRawTransaction
  secondarySignersPublicKeys : Option (List (Option PublicKey))
  feePayerPublicKey : Option PublicKey
  options : Option InputSimulateTransactionOptions
  deriving DecidableEq

/-- Environment of the `Simulate` class.  Modelled from the spec: the
internal `simulateTransaction` of `internal/transactionSubmission.ts` is not
among the reviewed sources; the spec treats it as part of the external HTTP
client layer, so it is an oracle of the environment. -/
structure SimulateEnv where
  simulateTransaction : SimulateTransactionArgs → Except String (List UserTransactionResponse)

/-- Modelled from the spec: the `ValidateFeePayerDataOnSimulation` decorator
(`api/transactionSubmission/helpers.ts`) is not among the reviewed sources;
the spec describes the component as "a thin simulate-transaction
passthrough", so the decorator is the identity wrapper on the method. -/
def ValidateFeePayerDataOnSimulation {α β : Type} (method : α → β) : α → β := method

/-- Arguments of `Simulate.simple`. -/
structure SimulateSimpleArgs where
  signerPublicKey : Option PublicKey
  transaction : AnyRawTransaction
  feePayerPublicKey : Option PublicKey
  options : Option InputSimulateTransactionOptions
  deriving DecidableEq

/-- Arguments of `Simulate.multiAgent`. -/
structure SimulateMultiAgentArgs where
  signerPublicKey : Option PublicKey
  transaction : AnyRawTransaction
  secondarySignersPublicKeys : Option (List (Option PublicKey))
  feePayerPublicKey : Option PublicKey
  options : Option InputSimulateTransactionOptions
  deriving DecidableEq

/-- The `Simulate` class: it holds the client configuration. -/
structure Simulate where
  config : AptosConfig
  deriving DecidableEq

/-- `{ aptosConfig: this.config, ...args }` for `Simulate.simple`. -/
def SimulateSimpleArgs.withConfig (args : SimulateSimpleArgs) (config : AptosConfig) :
    SimulateTransactionArgs :=
  { aptosConfig := config
    signerPublicKey := args.signerPublicKey
    transaction := args.transaction
    secondarySignersPublicKeys := none
    feePayerPublicKey := args.feePayerPublicKey
    options := args.options }

/-- `{ aptosConfig: this.config, ...args }` for `Simulate.multiAgent`. -/
def SimulateMultiAgentArgs.withConfig (args : SimulateMultiAgentArgs) (config : AptosConfig) :
    SimulateTransactionArgs :=
  { aptosConfig := config
    signerPublicKey := args.signerPublicKey
    transaction := args.transaction
    secondarySignersPublicKeys := args.secondarySignersPublicKeys
    feePayerPublicKey := args.feePayerPublicKey
    options := args.options }

/-- `Simulate.simple`: forward to `simulateTransaction` with the instance's
configuration added. -/
def Simulate.simple (self : Simulate) (env : SimulateEnv) :
    SimulateSimpleArgs → Except String (List UserTransactionResponse) :=
  ValidateFeePayerDataOnSimulation fun args =>
    env.simulateTransaction (args.withConfig self.config)

/-- `Simulate.multiAgent`: forward to `simulateTransaction` with the
instance's configuration added. -/
def Simulate.multiAgent (self : Simulate) (env : SimulateEnv) :
    SimulateMultiAgentArgs → Except String (List UserTransactionResponse) :=
  ValidateFeePayerDataOnSimulation fun args =>
    env.simulateTransaction (args.withConfig self.config)

/-! ## Characterization lemmas -/

/-- Cache hit: a fresh entry is returned with no request issued and the
cache unchanged. -/
theorem getKeylessConfig_hit (aptosConfig : AptosConfig) (env : Env) (cache : MemoCache)
    (v : KeylessConfiguration) (h : memoLookup env cache (keylessMemoKey aptosConfig) = some v) :
    getKeylessConfig aptosConfig env cache = ⟨[], .ok v, cache⟩ := by
  simp [getKeylessConfig, h]

/-- Cache miss with both resource reads succeeding: both resources are
fetched once, the configuration is assembled and stored. -/
theorem getKeylessConfig_miss_ok (aptosConfig : AptosConfig) (env : Env) (cache : MemoCache)
    (config : KeylessConfigurationResponse) (vk : Groth16VerificationKeyResponse)
    (hm : memoLookup env cache (keylessMemoKey aptosConfig) = none)
    (hc : env.keylessConfigResource = .ok config)
    (hv : env.groth16VkResource = .ok vk) :
    getKeylessConfig aptosConfig env cache =
      ⟨[.fullNodeGet keylessConfigurationPath, .fullNodeGet groth16VerificationKeyPath],
       .ok (KeylessConfiguration.create vk config.max_exp_horizon_secs),
       cache.store (keylessMemoKey aptosConfig)
         ⟨KeylessConfiguration.create vk config.max_exp_horizon_secs, env.nowMs⟩⟩ := by
  simp [getKeylessConfig, hm, getKeylessConfigurationResource,
    getGroth16VerificationKeyResource, hc, hv]

/-- Cache miss with the configuration read failing: the error propagates
after a single fetch. -/
theorem getKeylessConfig_miss_err1 (aptosConfig : AptosConfig) (env : Env) (cache : MemoCache)
    (e : String) (hm : memoLookup env cache (keylessMemoKey aptosConfig) = none)
    (hc : env.keylessConfigResource = .error e) :
    getKeylessConfig aptosConfig env cache =
      ⟨[.fullNodeGet keylessConfigurationPath], .error e, cache⟩ := by
  simp [getKeylessConfig, hm, getKeylessConfigurationResource, hc]

/-- Cache miss with the verification key read failing: the error propagates
after the two fetches. -/
theorem getKeylessConfig_miss_err2 (aptosConfig : AptosConfig) (env : Env) (cache : MemoCache)
    (config : KeylessConfigurationResponse) (e : String)
    (hm : memoLookup env cache (keylessMemoKey aptosConfig) = none)
    (hc : env.keylessConfigResource = .ok config)
    (hv : env.groth16VkResource = .error e) :
    getKeylessConfig aptosConfig env cache =
      ⟨[.fullNodeGet keylessConfigurationPath, .fullNodeGet groth16VerificationKeyPath],
       .error e, cache⟩ := by
  simp [getKeylessConfig, hm, getKeylessConfigurationResource,
    getGroth16VerificationKeyResource, hc, hv]

/-- Every request `getKeylessConfig` issues is a full-node GET. -/
theorem getKeylessConfig_trace_fullNode (aptosConfig : AptosConfig) (env : Env)
    (cache : MemoCache) :
    ∀ ev ∈ (getKeylessConfig aptosConfig env cache).trace, ∃ p, ev = Event.fullNodeGet p := by
  rcases hm : memoLookup env cache (keylessMemoKey aptosConfig) with _ | v
  · rcases hc : env.keylessConfigResource with e | config
    · rw [getKeylessConfig_miss_err1 aptosConfig env cache e hm hc]
      intro ev hev
      simp only [List.mem_singleton] at hev
      exact ⟨keylessConfigurationPath, hev⟩
    · rcases hv : env.groth16VkResource with e | vk
      · rw [getKeylessConfig_miss_err2 aptosConfig env cache config e hm hc hv]
        intro ev hev
        simp only [List.mem_cons, List.not_mem_nil, or_false] at hev
        rcases hev with rfl | rfl
        · exact ⟨keylessConfigurationPath, rfl⟩
        · exact ⟨groth16VerificationKeyPath, rfl⟩
      · rw [getKeylessConfig_miss_ok aptosConfig env cache config vk hm hc hv]
        intro ev hev
        simp only [List.mem_cons, List.not_mem_nil, or_false] at hev
        rcases hev with rfl | rfl
        · exact ⟨keylessConfigurationPath, rfl⟩
        · exact ⟨groth16VerificationKeyPath, rfl⟩
  · rw [getKeylessConfig_hit aptosConfig env cache v hm]
    intro ev hev
    cases hev

/-- `getPepper` issues exactly one request: the pepper-service POST. -/
theorem getPepper_trace (env : Env) (args : GetPepperArgs) :
    (getPepper env args).trace = [Event.pepperPost (mkPepperRequest args)] := by
  rcases hresp : env.pepperResponse (mkPepperRequest args) with e | data
  · simp [getPepper, hresp]
  · rcases hhex : Hex.fromHexInput (.str data.pepper) with e | h
    · simp [getPepper, hresp, hhex]
    · simp [getPepper, hresp, hhex]

/-- The trace of `getProof` is the configuration-fetch trace, optionally
followed by the single proving-service POST, whose body is determined by the
fetched configuration and the hex-decoded pepper. -/
theorem getProof_trace_shape (env : Env) (cache : MemoCache) (args : GetProofArgs) :
    (getProof env cache args).trace = (getKeylessConfig args.aptosConfig env cache).trace
  ∨ ∃ conf pepperHex,
      (getKeylessConfig args.aptosConfig env cache).result = Except.ok conf ∧
      Hex.fromHexInput args.pepper = Except.ok pepperHex ∧
      (getProof env cache args).trace
        = (getKeylessConfig args.aptosConfig env cache).trace
          ++ [Event.provePost (mkProverRequest args conf.maxExpHorizonSecs pepperHex)] := by
  rcases hkc : getKeylessConfig args.aptosConfig env cache with ⟨t, r, c⟩
  rcases r with e | conf
  · left; simp [getProof, hkc]
  · by_cases hlt : conf.maxExpHorizonSecs < args.ephemeralKeyPair.expiryDateSecs - env.nowSecs
    · left; simp [getProof, hkc, hlt]
    · rcases hhex : Hex.fromHexInput args.pepper with e | pepperHex
      · left; simp [getProof, hkc, hlt, hhex]
      · right
        refine ⟨conf, pepperHex, rfl, rfl, ?_⟩
        rcases hresp : env.proverResponse (mkProverRequest args conf.maxExpHorizonSecs pepperHex)
          with e | data
        · simp [getProof, hkc, hlt, hhex, hresp]
        · rcases hsig : EphemeralSignature.fromHex (.str data.training_wheels_signature)
            with e | tws
          · simp [getProof, hkc, hlt, hhex, hresp, hsig]
          · simp [getProof, hkc, hlt, hhex, hresp, hsig]

/-- `getProof` never contacts the pepper service. -/
theorem getProof_no_pepperPost (env : Env) (cache : MemoCache) (args : GetProofArgs) :
    ∀ body, Event.pepperPost body ∉ (getProof env cache args).trace := by
  intro body hmem
  have hcfg := getKeylessConfig_trace_fullNode args.aptosConfig env cache
  rcases getProof_trace_shape env cache args with hsh | ⟨conf, pepperHex, _, _, hsh⟩
  · rw [hsh] at hmem
    rcases hcfg _ hmem with ⟨p, hp⟩; cases hp
  · rw [hsh] at hmem
    rcases List.mem_append.mp hmem with h | h
    · rcases hcfg _ h with ⟨p, hp⟩; cases hp
    · simp only [List.mem_singleton] at h; cases h

/-- A proving-service POST in the trace of `getProof` carries the request
built from the fetched configuration and the hex-decoded pepper. -/
theorem getProof_provePost_body (env : Env) (cache : MemoCache) (args : GetProofArgs) :
    ∀ body, Event.provePost body ∈ (getProof env cache args).trace →
      ∃ conf pepperHex,
        (getKeylessConfig args.aptosConfig env cache).result = Except.ok conf ∧
        Hex.fromHexInput args.pepper = Except.ok pepperHex ∧
        body = mkProverRequest args conf.maxExpHorizonSecs pepperHex := by
  intro body hmem
  have hcfg := getKeylessConfig_trace_fullNode args.aptosConfig env cache
  rcases getProof_trace_shape env cache args with hsh | ⟨conf, pepperHex, hr, hhex, hsh⟩
  · rw [hsh] at hmem
    rcases hcfg _ hmem with ⟨p, hp⟩; cases hp
  · rw [hsh] at hmem
    rcases List.mem_append.mp hmem with h | h
    · rcases hcfg _ h with ⟨p, hp⟩; cases hp
    · simp only [List.mem_singleton, Event.provePost.injEq] at h
      exact ⟨conf, pepperHex, hr, hhex, h⟩

/-- The pepper phase of `deriveKeylessAccount` issues the one
pepper-service POST when no pepper was supplied, and nothing otherwise. -/
theorem pepperPhase_trace (env : Env) (args : DeriveKeylessAccountArgs) :
    (args.pepper = none →
      (pepperPhase env args).trace = [Event.pepperPost (mkPepperRequest args.toGetPepperArgs)]) ∧
    (∀ p, args.pepper = some p → (pepperPhase env args).trace = []) := by
  constructor
  · intro h
    simp only [pepperPhase, h]
    exact getPepper_trace env args.toGetPepperArgs
  · intro p h
    rcases hhex : Hex.fromHexInput p with e | hx
    · simp [pepperPhase, h, hhex]
    · simp [pepperPhase, h, hhex]

/-- The pepper phase never contacts the proving service. -/
theorem pepperPhase_no_provePost (env : Env) (args : DeriveKeylessAccountArgs) :
    ∀ body, Event.provePost body ∉ (pepperPhase env args).trace := by
  intro body hmem
  rcases hpe : args.pepper with _ | p
  · rw [(pepperPhase_trace env args).1 hpe] at hmem
    simp only [List.mem_singleton] at hmem
    cases hmem
  · rw [(pepperPhase_trace env args).2 p hpe] at hmem
    cases hmem

/-- A failing pepper phase propagates its error with nothing else issued. -/
theorem deriveKeylessAccount_pepper_err (env : Env) (cache : MemoCache)
    (args : DeriveKeylessAccountArgs) (e : String)
    (hp : (pepperPhase env args).result = Except.error e) :
    deriveKeylessAccount env cache args
      = ⟨(pepperPhase env args).trace, Except.error e, cache⟩ := by
  rcases hpp : pepperPhase env args with ⟨pt, pr⟩
  rw [hpp] at hp; dsimp at hp; subst hp
  simp [deriveKeylessAccount, hpp]

/-- A wrong-length pepper makes `deriveKeylessAccount` throw the length
error, with nothing issued beyond the pepper phase. -/
theorem deriveKeylessAccount_length_fail (env : Env) (cache : MemoCache)
    (args : DeriveKeylessAccountArgs) (pepperBytes : Bytes)
    (hp : (pepperPhase env args).result = Except.ok pepperBytes)
    (hlen : pepperBytes.length ≠ KeylessAccount.PEPPER_LENGTH) :
    deriveKeylessAccount env cache args
      = ⟨(pepperPhase env args).trace, Except.error pepperLengthMsg, cache⟩ := by
  rcases hpp : pepperPhase env args with ⟨pt, pr⟩
  rw [hpp] at hp; dsimp at hp; subst hp
  simp [deriveKeylessAccount, hpp, hlen]

/-- With a callback, a well-formed pepper leads to the account being
returned with the proof promise handed over unawaited. -/
theorem deriveKeylessAccount_with_callback (env : Env) (cache : MemoCache)
    (args : DeriveKeylessAccountArgs) (pepperBytes : Bytes)
    (hp : (pepperPhase env args).result = Except.ok pepperBytes)
    (hlen : pepperBytes.length = KeylessAccount.PEPPER_LENGTH)
    (hcb : args.proofFetchCallback = true) :
    deriveKeylessAccount env cache args
      = ⟨(pepperPhase env args).trace
           ++ (getProof env cache (args.toGetProofArgs pepperBytes)).trace,
         Except.ok (KeylessAccount.create args.jwt args.ephemeralKeyPair args.uidKey
           pepperBytes (.pending (getProof env cache (args.toGetProofArgs pepperBytes)).result)
           true),
         (getProof env cache (args.toGetProofArgs pepperBytes)).cache⟩ := by
  rcases hpp : pepperPhase env args with ⟨pt, pr⟩
  rw [hpp] at hp; dsimp at hp; subst hp
  simp [deriveKeylessAccount, hpp, hlen, hcb]

/-- Without a callback, a failing proof fetch propagates its error. -/
theorem deriveKeylessAccount_await_err (env : Env) (cache : MemoCache)
    (args : DeriveKeylessAccountArgs) (pepperBytes : Bytes) (e : String)
    (hp : (pepperPhase env args).result = Except.ok pepperBytes)
    (hlen : pepperBytes.length = KeylessAccount.PEPPER_LENGTH)
    (hcb : args.proofFetchCallback = false)
    (hgp : (getProof env cache (args.toGetProofArgs pepperBytes)).result = Except.error e) :
    deriveKeylessAccount env cache args
      = ⟨(pepperPhase env args).trace
           ++ (getProof env cache (args.toGetProofArgs pepperBytes)).trace,
         Except.error e,
         (getProof env cache (args.toGetProofArgs pepperBytes)).cache⟩ := by
  rcases hpp : pepperPhase env args with ⟨pt, pr⟩
  rw [hpp] at hp; dsimp at hp; subst hp
  rcases hgpp : getProof env cache (args.toGetProofArgs pepperBytes) with ⟨gt, gr, gc⟩
  rw [hgpp] at hgp; dsimp at hgp; subst hgp
  simp [deriveKeylessAccount, hpp, hgpp, hlen, hcb]

/-- Without a callback, a successful proof fetch yields the account with
the resolved proof. -/
theorem deriveKeylessAccount_await_ok (env : Env) (cache : MemoCache)
    (args : DeriveKeylessAccountArgs) (pepperBytes : Bytes) (sig : ZeroKnowledgeSig)
    (hp : (pepperPhase env args).result = Except.ok pepperBytes)
    (hlen : pepperBytes.length = KeylessAccount.PEPPER_LENGTH)
    (hcb : args.proofFetchCallback = false)
    (hgp : (getProof env cache (args.toGetProofArgs pepperBytes)).result = Except.ok sig) :
    deriveKeylessAccount env cache args
      = ⟨(pepperPhase env args).trace
           ++ (getProof env cache (args.toGetProofArgs pepperBytes)).trace,
         Except.ok (KeylessAccount.create args.jwt args.ephemeralKeyPair args.uidKey
           pepperBytes (.resolved sig) false),
         (getProof env cache (args.toGetProofArgs pepperBytes)).cache⟩ := by
  rcases hpp : pepperPhase env args with ⟨pt, pr⟩
  rw [hpp] at hp; dsimp at hp; subst hp
  rcases hgpp : getProof env cache (args.toGetProofArgs pepperBytes) with ⟨gt, gr, gc⟩
  rw [hgpp] at hgp; dsimp at hgp; subst hgp
  simp [deriveKeylessAccount, hpp, hgpp, hlen, hcb]

/-- The trace of `deriveKeylessAccount` is the pepper-phase trace,
optionally followed by the proof-stage trace once a pepper of the right
length was obtained. -/
theorem deriveKeylessAccount_trace_shape (env : Env) (cache : MemoCache)
    (args : DeriveKeylessAccountArgs) :
    (deriveKeylessAccount env cache args).trace = (pepperPhase env args).trace
  ∨ ∃ pepperBytes,
      (pepperPhase env args).result = Except.ok pepperBytes ∧
      pepperBytes.length = KeylessAccount.PEPPER_LENGTH ∧
      (deriveKeylessAccount env cache args).trace
        = (pepperPhase env args).trace
          ++ (getProof env cache (args.toGetProofArgs pepperBytes)).trace := by
  rcases hpr : (pepperPhase env args).result with e | pepperBytes
  · left
    rw [deriveKeylessAccount_pepper_err env cache args e hpr]
  · by_cases hlen : pepperBytes.length = KeylessAccount.PEPPER_LENGTH
    · right
      refine ⟨pepperBytes, rfl, hlen, ?_⟩
      rcases hcb : args.proofFetchCallback with _ | _
      · rcases hgp : (getProof env cache (args.toGetProofArgs pepperBytes)).result with e | sig
        · rw [deriveKeylessAccount_await_err env cache args pepperBytes e hpr hlen hcb hgp]
        · rw [deriveKeylessAccount_await_ok env cache args pepperBytes sig hpr hlen hcb hgp]
      · rw [deriveKeylessAccount_with_callback env cache args pepperBytes hpr hlen hcb]
    · left
      rw [deriveKeylessAccount_length_fail env cache args pepperBytes hpr hlen]

/-- A successfully derived account is assembled from the derive arguments,
the obtained pepper, and the proof stage: the pepper passed the length
check, all fields come from the arguments, and the proof is the pending
promise (with a callback) or the awaited signature (without). -/
theorem deriveKeylessAccount_account_fields (env : Env) (cache : MemoCache)
    (args : DeriveKeylessAccountArgs) (account : KeylessAccount)
    (hok : (deriveKeylessAccount env cache args).result = Except.ok account) :
    ∃ pepperBytes,
      (pepperPhase env args).result = Except.ok pepperBytes ∧
      pepperBytes.length = KeylessAccount.PEPPER_LENGTH ∧
      account.jwt = args.jwt ∧
      account.ephemeralKeyPair = args.ephemeralKeyPair ∧
      account.uidKey = args.uidKey.getD "sub" ∧
      account.pepper = pepperBytes ∧
      account.hasProofFetchCallback = args.proofFetchCallback ∧
      (args.proofFetchCallback = true →
        account.proof
          = .pending (getProof env cache (args.toGetProofArgs pepperBytes)).result) ∧
      (args.proofFetchCallback = false →
        ∃ sig, (getProof env cache (args.toGetProofArgs pepperBytes)).result = Except.ok sig ∧
          account.proof = .resolved sig) := by
  rcases hpr : (pepperPhase env args).result with e | pepperBytes
  · rw [deriveKeylessAccount_pepper_err env cache args e hpr] at hok
    exact absurd hok (by simp)
  · by_cases hlen : pepperBytes.length = KeylessAccount.PEPPER_LENGTH
    · rcases hcb : args.proofFetchCallback with _ | _
      · rcases hgp : (getProof env cache (args.toGetProofArgs pepperBytes)).result with e | sig
        · rw [deriveKeylessAccount_await_err env cache args pepperBytes e hpr hlen hcb hgp] at hok
          exact absurd hok (by simp)
        · rw [deriveKeylessAccount_await_ok env cache args pepperBytes sig hpr hlen hcb hgp] at hok
          dsimp at hok
          injection hok with hacc
          subst hacc
          exact ⟨pepperBytes, rfl, hlen, rfl, rfl, rfl, rfl, rfl,
            fun h => absurd h (by decide), fun _ => ⟨sig, hgp, rfl⟩⟩
      · rw [deriveKeylessAccount_with_callback env cache args pepperBytes hpr hlen hcb] at hok
        dsimp at hok
        injection hok with hacc
        subst hacc
        exact ⟨pepperBytes, rfl, hlen, rfl, rfl, rfl, rfl, rfl,
          fun _ => rfl, fun h => absurd h (by decide)⟩
    · rw [deriveKeylessAccount_length_fail env cache args pepperBytes hpr hlen] at hok
      exact absurd hok (by simp)

/-- The three possible traces of `getKeylessConfig`: nothing (cache hit),
the configuration read alone (it failed), or both resource reads. -/
theorem getKeylessConfig_trace_cases (aptosConfig : AptosConfig) (env : Env)
    (cache : MemoCache) :
    (getKeylessConfig aptosConfig env cache).trace = []
  ∨ (getKeylessConfig aptosConfig env cache).trace
      = [Event.fullNodeGet keylessConfigurationPath]
  ∨ (getKeylessConfig aptosConfig env cache).trace
      = [Event.fullNodeGet keylessConfigurationPath,
         Event.fullNodeGet groth16VerificationKeyPath] := by
  rcases hm : memoLookup env cache (keylessMemoKey aptosConfig) with _ | v
  · rcases hc : env.keylessConfigResource with e | config
    · right; left
      rw [getKeylessConfig_miss_err1 aptosConfig env cache e hm hc]
    · rcases hv : env.groth16VkResource with e | vk
      · right; right
        rw [getKeylessConfig_miss_err2 aptosConfig env cache config e hm hc hv]
      · right; right
        rw [getKeylessConfig_miss_ok aptosConfig env cache config vk hm hc hv]
  · left
    rw [getKeylessConfig_hit aptosConfig env cache v hm]

/-- The trace of `getProof` never repeats a request. -/
theorem getProof_trace_nodup (env : Env) (cache : MemoCache) (args : GetProofArgs) :
    (getProof env cache args).trace.Nodup := by
  have hkcn : (getKeylessConfig args.aptosConfig env cache).trace.Nodup := by
    rcases getKeylessConfig_trace_cases args.aptosConfig env cache with h | h | h <;>
      rw [h] <;> decide
  rcases getProof_trace_shape env cache args with hsh | ⟨conf, pepperHex, _, _, hsh⟩
  · rw [hsh]; exact hkcn
  · rw [hsh]
    refine hkcn.append (List.nodup_singleton _) ?_
    intro a hal har
    rcases getKeylessConfig_trace_fullNode args.aptosConfig env cache a hal with ⟨p, hp⟩
    subst hp
    simp only [List.mem_singleton] at har
    cases har

/-- A configuration-stage failure propagates unchanged through
`getProof`. -/
theorem getProof_config_error (env : Env) (cache : MemoCache) (args : GetProofArgs)
    (e : String)
    (h : (getKeylessConfig args.aptosConfig env cache).result = Except.error e) :
    (getProof env cache args).result = Except.error e := by
  rcases hkc : getKeylessConfig args.aptosConfig env cache with ⟨t, r, c⟩
  rw [hkc] at h; dsimp at h; subst h
  simp [getProof, hkc]

/-- When the proving service answers the issued request with an error, that
error is the result of `getProof`. -/
theorem getProof_prover_error (env : Env) (cache : MemoCache) (args : GetProofArgs) :
    ∀ body e, Event.provePost body ∈ (getProof env cache args).trace →
      env.proverResponse body = Except.error e →
      (getProof env cache args).result = Except.error e := by
  intro body e hmem hresp
  have htr := getKeylessConfig_trace_fullNode args.aptosConfig env cache
  rcases hkc : getKeylessConfig args.aptosConfig env cache with ⟨t, r, c⟩
  rw [hkc] at htr; dsimp at htr
  have hnt : Event.provePost body ∉ t := by
    intro hm; rcases htr _ hm with ⟨p, hp⟩; cases hp
  rcases r with e' | conf
  · simp only [getProof, hkc] at hmem
    exact absurd hmem hnt
  · by_cases hlt : conf.maxExpHorizonSecs < args.ephemeralKeyPair.expiryDateSecs - env.nowSecs
    · simp only [getProof, hkc] at hmem
      simp [hlt] at hmem
      exact absurd hmem hnt
    · rcases hhex : Hex.fromHexInput args.pepper with e' | pepperHex
      · simp only [getProof, hkc] at hmem
        simp [hlt, hhex] at hmem
        exact absurd hmem hnt
      · rcases hresp2 : env.proverResponse (mkProverRequest args conf.maxExpHorizonSecs pepperHex)
          with e' | data
        · simp only [getProof, hkc] at hmem ⊢
          simp [hlt, hhex, hresp2] at hmem ⊢
          rcases hmem with hmem | hmem
          · exact absurd hmem hnt
          · subst hmem
            rw [hresp] at hresp2
            injection hresp2 with he
            rw [he]
        · have hbody : body = mkProverRequest args conf.maxExpHorizonSecs pepperHex := by
            rcases hsig : EphemeralSignature.fromHex (.str data.training_wheels_signature)
              with e'' | tws
            · simp only [getProof, hkc] at hmem
              simp [hlt, hhex, hresp2, hsig] at hmem
              rcases hmem with hmem | hmem
              · exact absurd hmem hnt
              · exact hmem
            · simp only [getProof, hkc] at hmem
              simp [hlt, hhex, hresp2, hsig] at hmem
              rcases hmem with hmem | hmem
              · exact absurd hmem hnt
              · exact hmem
          rw [hbody, hresp2] at hresp
          cases hresp

/-- With no supplied pepper the pepper phase is exactly `getPepper`. -/
theorem pepperPhase_none (env : Env) (args : DeriveKeylessAccountArgs)
    (hpe : args.pepper = none) :
    pepperPhase env args = getPepper env args.toGetPepperArgs := by
  simp [pepperPhase, hpe]

/-! ## Concrete sample inputs used by the witnesses -/

/-- A sample verification-key resource. -/
def sampleVk : Groth16VerificationKeyResponse :=
  ⟨"alpha", "beta", "delta", ["gamma0"], "gamma"⟩

/-- A sample on-chain configuration resource with a horizon of 10000 s. -/
def sampleConfigResp : KeylessConfigurationResponse := ⟨10000⟩

/-- A 31-byte sample pepper. -/
def samplePepperBytes : Bytes := List.replicate 31 0

/-- A sample environment: both resources readable, services answering
fixed responses, clock at 100 s / 100000 ms. -/
def sampleEnv : Env :=
  { keylessConfigResource := .ok sampleConfigResp
    groth16VkResource := .ok sampleVk
    pepperResponse := fun _ => .ok ⟨bytesToHex samplePepperBytes⟩
    proverResponse := fun _ => .ok ⟨⟨"pa", "pb", "pc"⟩, "0a"⟩
    nowSecs := 100
    nowMs := 100000 }

/-- The empty memoization cache. -/
def emptyCache : MemoCache := ⟨[]⟩

/-- Sample `getProof` arguments whose ephemeral key pair lives far beyond
the 10000 s horizon (expiry 100000 s at current time 100 s). -/
def sampleProofArgsLong : GetProofArgs :=
  ⟨⟨"devnet"⟩, "jwt", ⟨"aabb", 100000, [1, 2]⟩, .bytes samplePepperBytes, none⟩

/-- Sample `getProof` arguments whose ephemeral key pair lifetime (400 s)
is within the 10000 s horizon. -/
def sampleProofArgsShort : GetProofArgs :=
  ⟨⟨"devnet"⟩, "jwt", ⟨"aabb", 500, [1, 2]⟩, .bytes samplePepperBytes, none⟩

/-- Sample derive arguments: 31-byte supplied pepper, short-lived key pair,
no callback. -/
def sampleDeriveArgsGood : DeriveKeylessAccountArgs :=
  ⟨⟨"devnet"⟩, "jwt", ⟨"aabb", 500, [1, 2]⟩, none, some (.bytes samplePepperBytes), false⟩

/-- Sample derive arguments with a 2-byte supplied pepper. -/
def sampleDeriveArgsBadPepper : DeriveKeylessAccountArgs :=
  ⟨⟨"devnet"⟩, "jwt", ⟨"aabb", 500, [1, 2]⟩, none, some (.bytes [1, 2]), false⟩

/-- Sample derive arguments with no supplied pepper, no callback. -/
def sampleDeriveArgsNoPepper : DeriveKeylessAccountArgs :=
  ⟨⟨"devnet"⟩, "jwt", ⟨"aabb", 500, [1, 2]⟩, none, none, false⟩

/-- Sample derive arguments with no supplied pepper and a proof-fetch
callback. -/
def sampleDeriveArgsCallback : DeriveKeylessAccountArgs :=
  ⟨⟨"devnet"⟩, "jwt", ⟨"aabb", 500, [1, 2]⟩, none, none, true⟩

/-! ## C1 -/

/-- C1: `getProof` validates the ephemeral key pair's lifetime against the
chain-configured maximum.  When the chain configuration fetch yields
`conf`, then: if the key pair's lifetime (`expiryDateSecs` minus the current
time in seconds) exceeds `conf.maxExpHorizonSecs`, `getProof` throws the
too-long-lived error and no proving-service request appears in its trace;
otherwise (whenever the pepper input hex-decodes, as the byte peppers passed
by `deriveKeylessAccount` always do) it issues the proving-service
request. -/
theorem getProof_lifetime_validation (env : Env) (cache : MemoCache) (args : GetProofArgs)
    (conf : KeylessConfiguration)
    (hconf : (getKeylessConfig args.aptosConfig env cache).result = Except.ok conf) :
    (conf.maxExpHorizonSecs < args.ephemeralKeyPair.expiryDateSecs - env.nowSecs →
      (getProof env cache args).result
          = Except.error (ekpTooLongLivedMsg conf.maxExpHorizonSecs) ∧
        ∀ body, Event.provePost body ∉ (getProof env cache args).trace) ∧
    (args.ephemeralKeyPair.expiryDateSecs - env.nowSecs ≤ conf.maxExpHorizonSecs →
      ∀ pepperHex, Hex.fromHexInput args.pepper = Except.ok pepperHex →
        Event.provePost (mkProverRequest args conf.maxExpHorizonSecs pepperHex) ∈
          (getProof env cache args).trace) := by
  have htr := getKeylessConfig_trace_fullNode args.aptosConfig env cache
  rcases hkc : getKeylessConfig args.aptosConfig env cache with ⟨t, r, c⟩
  rw [hkc] at hconf htr
  dsimp at hconf htr
  subst hconf
  constructor
  · intro hlt
    constructor
    · simp [getProof, hkc, hlt]
    · intro body hmem
      simp only [getProof, hkc] at hmem
      simp [hlt] at hmem
      rcases htr _ hmem with ⟨p, hp⟩
      cases hp
  · intro hle pepperHex hhex
    have hnlt : ¬ conf.maxExpHorizonSecs < args.ephemeralKeyPair.expiryDateSecs - env.nowSecs :=
      not_lt.mpr hle
    rcases hresp : env.proverResponse (mkProverRequest args conf.maxExpHorizonSecs pepperHex)
      with e | data
    · simp [getProof, hkc, hnlt, hhex, hresp]
    · rcases hsig : EphemeralSignature.fromHex (.str data.training_wheels_signature)
        with e | tws
      · simp [getProof, hkc, hnlt, hhex, hresp, hsig]
      · simp [getProof, hkc, hnlt, hhex, hresp, hsig]

/-- Witness for C1: at the sample environment the long-lived key pair is
rejected with no proving-service contact, and the short-lived one leads to
the proving-service request being issued. -/
theorem getProof_lifetime_validation_witness :
    (getProof sampleEnv emptyCache sampleProofArgsLong).result
        = Except.error (ekpTooLongLivedMsg 10000) ∧
      Event.provePost (mkProverRequest sampleProofArgsShort 10000 ⟨samplePepperBytes⟩) ∈
        (getProof sampleEnv emptyCache sampleProofArgsShort).trace :=
  ⟨((getProof_lifetime_validation sampleEnv emptyCache sampleProofArgsLong
      (KeylessConfiguration.create sampleVk 10000) (by decide)).1 (by decide)).1,
   (getProof_lifetime_validation sampleEnv emptyCache sampleProofArgsShort
      (KeylessConfiguration.create sampleVk 10000) (by decide)).2 (by decide)
      ⟨samplePepperBytes⟩ (by decide)⟩

/-! ## C2 -/

/-- C2: when the pepper in use (fetched or supplied) is not exactly
`KeylessAccount.PEPPER_LENGTH` bytes, `deriveKeylessAccount` throws the
pepper-length error and no account is constructed; a pepper of exactly that
length passes the check, the derivation proceeding to the proof stage. -/
theorem deriveKeylessAccount_pepper_length_check (env : Env) (cache : MemoCache)
    (args : DeriveKeylessAccountArgs) (pepperBytes : Bytes)
    (hp : (pepperPhase env args).result = Except.ok pepperBytes) :
    (pepperBytes.length ≠ KeylessAccount.PEPPER_LENGTH →
      (deriveKeylessAccount env cache args).result = Except.error pepperLengthMsg) ∧
    (pepperBytes.length = KeylessAccount.PEPPER_LENGTH →
      (deriveKeylessAccount env cache args).trace
        = (pepperPhase env args).trace
          ++ (getProof env cache (args.toGetProofArgs pepperBytes)).trace) := by
  constructor
  · intro hlen
    rw [deriveKeylessAccount_length_fail env cache args pepperBytes hp hlen]
  · intro hlen
    rcases hcb : args.proofFetchCallback with _ | _
    · rcases hgp : (getProof env cache (args.toGetProofArgs pepperBytes)).result with e | sig
      · rw [deriveKeylessAccount_await_err env cache args pepperBytes e hp hlen hcb hgp]
      · rw [deriveKeylessAccount_await_ok env cache args pepperBytes sig hp hlen hcb hgp]
    · rw [deriveKeylessAccount_with_callback env cache args pepperBytes hp hlen hcb]

/-- Witness for C2: a 2-byte supplied pepper is rejected, a 31-byte one
passes the check and the proof stage runs. -/
theorem deriveKeylessAccount_pepper_length_check_witness :
    (deriveKeylessAccount sampleEnv emptyCache sampleDeriveArgsBadPepper).result
        = Except.error pepperLengthMsg ∧
      (deriveKeylessAccount sampleEnv emptyCache sampleDeriveArgsGood).trace
        = (pepperPhase sampleEnv sampleDeriveArgsGood).trace
          ++ (getProof sampleEnv emptyCache
                (sampleDeriveArgsGood.toGetProofArgs samplePepperBytes)).trace :=
  ⟨(deriveKeylessAccount_pepper_length_check sampleEnv emptyCache sampleDeriveArgsBadPepper
      [1, 2] (by decide)).1 (by decide),
   (deriveKeylessAccount_pepper_length_check sampleEnv emptyCache sampleDeriveArgsGood
      samplePepperBytes (by decide)).2 (by decide)⟩

/-! ## C10 -/

/-- C10: when `deriveKeylessAccount` throws the pepper-length error (the
pepper phase produced bytes of the wrong length), no proving-service
request has been initiated: the trace holds no proving-service POST. -/
theorem deriveKeylessAccount_length_error_before_proof (env : Env) (cache : MemoCache)
    (args : DeriveKeylessAccountArgs) (pepperBytes : Bytes)
    (hp : (pepperPhase env args).result = Except.ok pepperBytes)
    (hlen : pepperBytes.length ≠ KeylessAccount.PEPPER_LENGTH) :
    (deriveKeylessAccount env cache args).result = Except.error pepperLengthMsg ∧
    ∀ body, Event.provePost body ∉ (deriveKeylessAccount env cache args).trace := by
  rw [deriveKeylessAccount_length_fail env cache args pepperBytes hp hlen]
  exact ⟨rfl, fun body hmem => pepperPhase_no_provePost env args body hmem⟩

/-- Witness for C10: the 2-byte supplied pepper makes the derivation throw
the length error. -/
theorem deriveKeylessAccount_length_error_before_proof_witness :
    (deriveKeylessAccount sampleEnv emptyCache sampleDeriveArgsBadPepper).result
      = Except.error pepperLengthMsg :=
  (deriveKeylessAccount_length_error_before_proof sampleEnv emptyCache
    sampleDeriveArgsBadPepper [1, 2] (by decide) (by decide)).1

/-! ## C9 -/

/-- C9: with a caller-supplied pepper the pepper service is never contacted
(no pepper-service POST appears in the trace), and the supplied `HexInput`,
normalized by hex decoding, is the value used for the length check, carried
(hex-encoded) in any proving-service request, and stored in the constructed
account. -/
theorem deriveKeylessAccount_supplied_pepper (env : Env) (cache : MemoCache)
    (args : DeriveKeylessAccountArgs) (p : HexInput)
    (hpe : args.pepper = some p) :
    (∀ body, Event.pepperPost body ∉ (deriveKeylessAccount env cache args).trace) ∧
    (∀ h, Hex.fromHexInput p = Except.ok h →
      (pepperPhase env args).result = Except.ok h.data ∧
      (h.data.length ≠ KeylessAccount.PEPPER_LENGTH →
        (deriveKeylessAccount env cache args).result = Except.error pepperLengthMsg) ∧
      (∀ body, Event.provePost body ∈ (deriveKeylessAccount env cache args).trace →
        body.pepper = bytesToHex h.data) ∧
      (∀ account, (deriveKeylessAccount env cache args).result = Except.ok account →
        account.pepper = h.data)) := by
  have hppt : (pepperPhase env args).trace = [] := (pepperPhase_trace env args).2 p hpe
  constructor
  · intro body hmem
    rcases deriveKeylessAccount_trace_shape env cache args with hsh | ⟨pb, _, _, hsh⟩
    · rw [hsh, hppt] at hmem
      cases hmem
    · rw [hsh, hppt, List.nil_append] at hmem
      exact getProof_no_pepperPost env cache (args.toGetProofArgs pb) body hmem
  · intro h hhex
    have hpp : (pepperPhase env args).result = Except.ok h.data := by
      simp [pepperPhase, hpe, hhex, Hex.toUint8Array]
    refine ⟨hpp, ?_, ?_, ?_⟩
    · intro hlen
      rw [deriveKeylessAccount_length_fail env cache args h.data hpp hlen]
    · intro body hmem
      rcases deriveKeylessAccount_trace_shape env cache args with hsh | ⟨pb, hpb, _, hsh⟩
      · rw [hsh, hppt] at hmem
        cases hmem
      · rw [hsh, hppt, List.nil_append] at hmem
        have hpbh : pb = h.data := by
          rw [hpp] at hpb
          injection hpb with he
          exact he.symm
        rcases getProof_provePost_body env cache (args.toGetProofArgs pb) body hmem
          with ⟨conf, pepperHex, _, hhex2, hbody⟩
        have hph : pepperHex = ⟨pb⟩ := by
          simp only [DeriveKeylessAccountArgs.toGetProofArgs, Hex.fromHexInput] at hhex2
          injection hhex2 with he
          exact he.symm
        rw [hbody, hph, hpbh]
        rfl
    · intro account hok
      rcases deriveKeylessAccount_account_fields env cache args account hok
        with ⟨pb, hpb, _, _, _, _, hpep, _, _, _⟩
      rw [hpp] at hpb
      injection hpb with he
      rw [hpep, ← he]

/-- Witness for C9: the supplied 31-byte pepper is used unchanged and the
pepper service is left uncontacted (the result is an account carrying it). -/
theorem deriveKeylessAccount_supplied_pepper_witness :
    (pepperPhase sampleEnv sampleDeriveArgsGood).result = Except.ok samplePepperBytes :=
  ((deriveKeylessAccount_supplied_pepper sampleEnv emptyCache sampleDeriveArgsGood
      (.bytes samplePepperBytes) (by decide)).2 ⟨samplePepperBytes⟩ (by decide)).1

/-! ## C4 -/

/-- C4: without a caller-supplied pepper the derivation runs JWT → pepper →
proof → account: the trace starts with the pepper-service POST, any
proving-service POST comes after it and carries the fetched pepper
(hex-encoded) together with the JWT, and a successfully derived account is
assembled from that pepper, the proof outcome of the proof stage, and the
ephemeral key pair. -/
theorem deriveKeylessAccount_pipeline_order (env : Env) (cache : MemoCache)
    (args : DeriveKeylessAccountArgs) (hpe : args.pepper = none) :
    (∃ rest, (deriveKeylessAccount env cache args).trace
        = Event.pepperPost (mkPepperRequest args.toGetPepperArgs) :: rest) ∧
    (∀ pepperBytes, (getPepper env args.toGetPepperArgs).result = Except.ok pepperBytes →
      ∀ body, Event.provePost body ∈ (deriveKeylessAccount env cache args).trace →
        body.pepper = bytesToHex pepperBytes ∧ body.jwt_b64 = args.jwt) ∧
    (∀ account, (deriveKeylessAccount env cache args).result = Except.ok account →
      ∃ pepperBytes,
        (getPepper env args.toGetPepperArgs).result = Except.ok pepperBytes ∧
        account.pepper = pepperBytes ∧
        account.ephemeralKeyPair = args.ephemeralKeyPair ∧
        account.jwt = args.jwt ∧
        (args.proofFetchCallback = true →
          account.proof
            = .pending (getProof env cache (args.toGetProofArgs pepperBytes)).result) ∧
        (args.proofFetchCallback = false →
          ∃ sig,
            (getProof env cache (args.toGetProofArgs pepperBytes)).result = Except.ok sig ∧
            account.proof = .resolved sig)) := by
  have hpp := pepperPhase_none env args hpe
  have hppt : (pepperPhase env args).trace
      = [Event.pepperPost (mkPepperRequest args.toGetPepperArgs)] :=
    (pepperPhase_trace env args).1 hpe
  refine ⟨?_, ?_, ?_⟩
  · rcases deriveKeylessAccount_trace_shape env cache args with hsh | ⟨pb, _, _, hsh⟩
    · exact ⟨[], by rw [hsh, hppt]⟩
    · exact ⟨(getProof env cache (args.toGetProofArgs pb)).trace, by rw [hsh, hppt]; rfl⟩
  · intro pepperBytes hpep body hmem
    rcases deriveKeylessAccount_trace_shape env cache args with hsh | ⟨pb, hpb, _, hsh⟩
    · rw [hsh, hppt] at hmem
      simp only [List.mem_singleton] at hmem
      cases hmem
    · rw [hsh, hppt] at hmem
      rcases List.mem_cons.mp hmem with h | h
      · cases h
      · have hpbe : pb = pepperBytes := by
          rw [hpp, hpep] at hpb
          injection hpb with he
          exact he.symm
        rcases getProof_provePost_body env cache (args.toGetProofArgs pb) body h
          with ⟨conf, pepperHex, _, hhex2, hbody⟩
        have hph : pepperHex = ⟨pb⟩ := by
          simp only [DeriveKeylessAccountArgs.toGetProofArgs, Hex.fromHexInput] at hhex2
          injection hhex2 with he
          exact he.symm
        subst hpbe
        rw [hbody, hph]
        exact ⟨rfl, rfl⟩
  · intro account hok
    rcases deriveKeylessAccount_account_fields env cache args account hok
      with ⟨pb, hpb, _, hjwt, hekp, _, hpep, _, hpend, hres⟩
    rw [hpp] at hpb
    exact ⟨pb, hpb, hpep, hekp, hjwt, hpend, hres⟩

/-- Witness for C4: with no supplied pepper the trace opens with the
pepper-service POST. -/
theorem deriveKeylessAccount_pipeline_order_witness :
    ∃ rest, (deriveKeylessAccount sampleEnv emptyCache sampleDeriveArgsNoPepper).trace
      = Event.pepperPost (mkPepperRequest sampleDeriveArgsNoPepper.toGetPepperArgs) :: rest :=
  (deriveKeylessAccount_pipeline_order sampleEnv emptyCache sampleDeriveArgsNoPepper
    (by decide)).1

/-! ## C5 -/

/-- C5: once a pepper of the right length is in hand, a supplied
proof-fetch callback makes `deriveKeylessAccount` return the account
whatever the pending promise holds, the proof passed to account assembly as
that still-pending promise; without a callback the promise is awaited: a
proof-fetch error propagates and a fetched signature is stored resolved. -/
theorem deriveKeylessAccount_callback_modes (env : Env) (cache : MemoCache)
    (args : DeriveKeylessAccountArgs) (pepperBytes : Bytes)
    (hp : (pepperPhase env args).result = Except.ok pepperBytes)
    (hlen : pepperBytes.length = KeylessAccount.PEPPER_LENGTH) :
    (args.proofFetchCallback = true →
      (deriveKeylessAccount env cache args).result
        = Except.ok (KeylessAccount.create args.jwt args.ephemeralKeyPair args.uidKey
            pepperBytes
            (.pending (getProof env cache (args.toGetProofArgs pepperBytes)).result) true)) ∧
    (args.proofFetchCallback = false →
      (∀ e, (getProof env cache (args.toGetProofArgs pepperBytes)).result = Except.error e →
        (deriveKeylessAccount env cache args).result = Except.error e) ∧
      (∀ sig, (getProof env cache (args.toGetProofArgs pepperBytes)).result = Except.ok sig →
        (deriveKeylessAccount env cache args).result
          = Except.ok (KeylessAccount.create args.jwt args.ephemeralKeyPair args.uidKey
              pepperBytes (.resolved sig) false))) := by
  constructor
  · intro hcb
    rw [deriveKeylessAccount_with_callback env cache args pepperBytes hp hlen hcb]
  · intro hcb
    constructor
    · intro e hgp
      rw [deriveKeylessAccount_await_err env cache args pepperBytes e hp hlen hcb hgp]
    · intro sig hgp
      rw [deriveKeylessAccount_await_ok env cache args pepperBytes sig hp hlen hcb hgp]

/-- The `ZeroKnowledgeSig` the sample environment's prover yields. -/
def sampleSig : ZeroKnowledgeSig :=
  ⟨⟨⟨"pa", "pb", "pc"⟩, .Groth16⟩, 10000, ⟨[10]⟩⟩

/-! ## C6 -/

/-- C6: the `ZeroKnowledgeSig` a successful `getProof` returns is assembled
exactly from the proving-service response and the chain configuration: a
Groth16 proof from the response's points `a`, `b`, `c` (tagged with the
Groth16 variant), the training-wheels signature parsed from the response's
`training_wheels_signature`, and the chain-configured `maxExpHorizonSecs`
as its expiry horizon. -/
theorem getProof_assembles_response (env : Env) (cache : MemoCache) (args : GetProofArgs)
    (conf : KeylessConfiguration) (pepperHex : Hex) (data : ProverResponse)
    (tws : EphemeralSignature)
    (hconf : (getKeylessConfig args.aptosConfig env cache).result = Except.ok conf)
    (hle : args.ephemeralKeyPair.expiryDateSecs - env.nowSecs ≤ conf.maxExpHorizonSecs)
    (hhex : Hex.fromHexInput args.pepper = Except.ok pepperHex)
    (hresp : env.proverResponse (mkProverRequest args conf.maxExpHorizonSecs pepperHex)
      = Except.ok data)
    (hsig : EphemeralSignature.fromHex (.str data.training_wheels_signature)
      = Except.ok tws) :
    (getProof env cache args).result
      = Except.ok
          { proof := { proof := { a := data.proof.a, b := data.proof.b, c := data.proof.c }
                       variant := .Groth16 }
            expHorizonSecs := conf.maxExpHorizonSecs
            trainingWheelsSignature := tws } := by
  have hnlt : ¬ conf.maxExpHorizonSecs < args.ephemeralKeyPair.expiryDateSecs - env.nowSecs :=
    not_lt.mpr hle
  rcases hkc : getKeylessConfig args.aptosConfig env cache with ⟨t, r, c⟩
  rw [hkc] at hconf; dsimp at hconf; subst hconf
  simp [getProof, hkc, hnlt, hhex, hresp, hsig]

/-- Witness for C6: at the sample environment the proof comes back as the
value assembled from the sample prover response and the 10000 s horizon. -/
theorem getProof_assembles_response_witness :
    (getProof sampleEnv emptyCache sampleProofArgsShort).result = Except.ok sampleSig :=
  getProof_assembles_response sampleEnv emptyCache sampleProofArgsShort
    (KeylessConfiguration.create sampleVk 10000) ⟨samplePepperBytes⟩
    ⟨⟨"pa", "pb", "pc"⟩, "0a"⟩ ⟨[10]⟩
    (by decide) (by decide) (by decide) (by decide) (by decide)

/-! ## C8 -/

/-- C8: no request of the derivation pipeline is retried, and failures
propagate.  `getPepper` issues exactly its single pepper-service POST and
returns a pepper-service error unchanged; `getProof` issues every request
at most once (its trace has no duplicates), never posts to the pepper
service, propagates a failed on-chain resource read (on a cold cache), and
returns a proving-service error unchanged. -/
theorem keyless_no_retry (env : Env) (cache : MemoCache) (pargs : GetPepperArgs)
    (qargs : GetProofArgs) :
    ((getPepper env pargs).trace = [Event.pepperPost (mkPepperRequest pargs)]) ∧
    (∀ e, env.pepperResponse (mkPepperRequest pargs) = Except.error e →
      (getPepper env pargs).result = Except.error e) ∧
    (∀ ev, ((getProof env cache qargs).trace).count ev ≤ 1) ∧
    (∀ body, Event.pepperPost body ∉ (getProof env cache qargs).trace) ∧
    (∀ e, memoLookup env cache (keylessMemoKey qargs.aptosConfig) = none →
      env.keylessConfigResource = Except.error e →
      (getProof env cache qargs).result = Except.error e) ∧
    (∀ config e, memoLookup env cache (keylessMemoKey qargs.aptosConfig) = none →
      env.keylessConfigResource = Except.ok config →
      env.groth16VkResource = Except.error e →
      (getProof env cache qargs).result = Except.error e) ∧
    (∀ body e, Event.provePost body ∈ (getProof env cache qargs).trace →
      env.proverResponse body = Except.error e →
      (getProof env cache qargs).result = Except.error e) := by
  refine ⟨getPepper_trace env pargs, ?_, ?_, getProof_no_pepperPost env cache qargs,
    ?_, ?_, getProof_prover_error env cache qargs⟩
  · intro e hresp
    simp [getPepper, hresp]
  · exact List.nodup_iff_count_le_one.mp (getProof_trace_nodup env cache qargs)
  · intro e hm hc
    exact getProof_config_error env cache qargs e
      (by rw [getKeylessConfig_miss_err1 qargs.aptosConfig env cache e hm hc])
  · intro config e hm hc hv
    exact getProof_config_error env cache qargs e
      (by rw [getKeylessConfig_miss_err2 qargs.aptosConfig env cache config e hm hc hv])

/-- A sample environment whose external services all fail. -/
def sampleEnvFail : Env :=
  { keylessConfigResource := .error "config down"
    groth16VkResource := .error "vk down"
    pepperResponse := fun _ => .error "pepper down"
    proverResponse := fun _ => .error "prover down"
    nowSecs := 100
    nowMs := 100000 }

/-- Sample `getPepper` arguments. -/
def sampleGetPepperArgs : GetPepperArgs :=
  ⟨⟨"devnet"⟩, "jwt", ⟨"aabb", 500, [1, 2]⟩, none, none⟩

/-- Witness for C8: a pepper-service failure propagates out of `getPepper`
and a full-node failure propagates out of `getProof`. -/
theorem keyless_no_retry_witness :
    (getPepper sampleEnvFail sampleGetPepperArgs).result = Except.error "pepper down" ∧
      (getProof sampleEnvFail emptyCache sampleProofArgsShort).result
        = Except.error "config down" :=
  ⟨(keyless_no_retry sampleEnvFail emptyCache sampleGetPepperArgs
      sampleProofArgsShort).2.1 "pepper down" (by decide),
   (keyless_no_retry sampleEnvFail emptyCache sampleGetPepperArgs
      sampleProofArgsShort).2.2.2.2.1 "config down" (by decide) (by decide)⟩

/-! ## C3 -/

/-- Looking up a key just stored finds the stored value while within the
time-to-live. -/
theorem memoLookup_store_fresh (env2 : Env) (cache : MemoCache) (key : String)
    (v : KeylessConfiguration) (ts : Nat)
    (h : env2.nowMs - ts ≤ keylessMemoTtlMs) :
    memoLookup env2 (cache.store key ⟨v, ts⟩) key = some v := by
  simp [memoLookup, MemoCache.store, MemoCache.lookup, List.find?, h]

/-- C3: `getKeylessConfig` caches the on-chain configuration per network
for 5 minutes.  Starting from a cache with no entry for the network, a
first call that succeeds reads each of the two on-chain resources exactly
once and returns the `KeylessConfiguration` assembled from the verification
key and the numeric `max_exp_horizon_secs`; a second call with the same
network on the resulting cache, within 5 minutes on the millisecond clock,
reads nothing and returns the same configuration. -/
theorem getKeylessConfig_five_minute_cache (aptosConfig : AptosConfig) (env1 env2 : Env)
    (cache : MemoCache) (config : KeylessConfigurationResponse)
    (vk : Groth16VerificationKeyResponse)
    (hm : memoLookup env1 cache (keylessMemoKey aptosConfig) = none)
    (hc : env1.keylessConfigResource = Except.ok config)
    (hv : env1.groth16VkResource = Except.ok vk)
    (hwin : env2.nowMs - env1.nowMs ≤ keylessMemoTtlMs) :
    (getKeylessConfig aptosConfig env1 cache).trace
        = [Event.fullNodeGet keylessConfigurationPath,
           Event.fullNodeGet groth16VerificationKeyPath] ∧
    (getKeylessConfig aptosConfig env1 cache).result
        = Except.ok (KeylessConfiguration.create vk config.max_exp_horizon_secs) ∧
    (getKeylessConfig aptosConfig env2 (getKeylessConfig aptosConfig env1 cache).cache).trace
        = [] ∧
    (getKeylessConfig aptosConfig env2 (getKeylessConfig aptosConfig env1 cache).cache).result
        = Except.ok (KeylessConfiguration.create vk config.max_exp_horizon_secs) := by
  have h1 := getKeylessConfig_miss_ok aptosConfig env1 cache config vk hm hc hv
  have h2 : memoLookup env2 (getKeylessConfig aptosConfig env1 cache).cache
      (keylessMemoKey aptosConfig)
      = some (KeylessConfiguration.create vk config.max_exp_horizon_secs) := by
    rw [h1]
    exact memoLookup_store_fresh env2 cache (keylessMemoKey aptosConfig) _ env1.nowMs hwin
  have h3 := getKeylessConfig_hit aptosConfig env2
    (getKeylessConfig aptosConfig env1 cache).cache
    (KeylessConfiguration.create vk config.max_exp_horizon_secs) h2
  exact ⟨by rw [h1], by rw [h1], by rw [h3], by rw [h3]⟩

/-- Witness for C3: on the sample environment the second call is served
from the cache with no further full-node reads. -/
theorem getKeylessConfig_five_minute_cache_witness :
    (getKeylessConfig ⟨"devnet"⟩ sampleEnv
        (getKeylessConfig ⟨"devnet"⟩ sampleEnv emptyCache).cache).trace = [] ∧
      (getKeylessConfig ⟨"devnet"⟩ sampleEnv
        (getKeylessConfig ⟨"devnet"⟩ sampleEnv emptyCache).cache).result
        = Except.ok (KeylessConfiguration.create sampleVk 10000) :=
  ⟨(getKeylessConfig_five_minute_cache ⟨"devnet"⟩ sampleEnv sampleEnv emptyCache
      sampleConfigResp sampleVk (by decide) (by decide) (by decide) (by decide)).2.2.1,
   (getKeylessConfig_five_minute_cache ⟨"devnet"⟩ sampleEnv sampleEnv emptyCache
      sampleConfigResp sampleVk (by decide) (by decide) (by decide) (by decide)).2.2.2⟩

/-! ## C7 -/

/-- C7: the `Simulate` methods are thin passthroughs: each returns exactly
the result of `simulateTransaction` on its argument object extended with
the instance's `AptosConfig`, with no other transformation of inputs or
outputs (the fee-payer validation decorator, outside the reviewed sources,
is spec-modelled as the identity wrapper). -/
theorem simulate_passthrough (self : Simulate) (env : SimulateEnv)
    (args1 : SimulateSimpleArgs) (args2 : SimulateMultiAgentArgs) :
    Simulate.simple self env args1
        = env.simulateTransaction
            { aptosConfig := self.config
              signerPublicKey := args1.signerPublicKey
              transaction := args1.transaction
              secondarySignersPublicKeys := none
              feePayerPublicKey := args1.feePayerPublicKey
              options := args1.options } ∧
      Simulate.multiAgent self env args2
        = env.simulateTransaction
            { aptosConfig := self.config
              signerPublicKey := args2.signerPublicKey
              transaction := args2.transaction
              secondarySignersPublicKeys := args2.secondarySignersPublicKeys
              feePayerPublicKey := args2.feePayerPublicKey
              options := args2.options } :=
  ⟨rfl, rfl⟩

/-- Witness for C5: with the callback the account arrives holding the
pending promise; without it the same inputs yield the resolved proof. -/
theorem deriveKeylessAccount_callback_modes_witness :
    (deriveKeylessAccount sampleEnv emptyCache sampleDeriveArgsCallback).result
        = Except.ok (KeylessAccount.create "jwt" ⟨"aabb", 500, [1, 2]⟩ none samplePepperBytes
            (.pending (getProof sampleEnv emptyCache
              (sampleDeriveArgsCallback.toGetProofArgs samplePepperBytes)).result) true) ∧
      (deriveKeylessAccount sampleEnv emptyCache sampleDeriveArgsGood).result
        = Except.ok (KeylessAccount.create "jwt" ⟨"aabb", 500, [1, 2]⟩ none samplePepperBytes
            (.resolved sampleSig) false) :=
  ⟨(deriveKeylessAccount_callback_modes sampleEnv emptyCache sampleDeriveArgsCallback
      samplePepperBytes (by decide) (by decide)).1 (by decide),
   ((deriveKeylessAccount_callback_modes sampleEnv emptyCache sampleDeriveArgsGood
      samplePepperBytes (by decide) (by decide)).2 (by decide)).2 sampleSig (by decide)⟩

end AptosSDK
